import Mathlib

/-!
Shallow embedding of the change-detection core of the file_integrity_monitor
repository (directory src/fim).  Python dictionaries are modelled as
association lists `List (String × α)` with lookup `dget` and assignment
`dset` (update in place, append when the key is new, matching insertion-order
semantics).  Python's `sorted` on strings is modelled by insertion sort under
the code-point lexicographic order `strRel`; every list the code sorts is a
list of distinct dictionary keys, for which insertion sort produces exactly
the output of `sorted`.  File-system interaction (existence tests, directory
walks, byte reading, stat) is passed in explicitly as oracle structures, and
fallible operations return `Except` (an `error` models a raised exception).
`mtime` and event timestamps are modelled as rationals: the code never does
arithmetic on `mtime`, and the debounce arithmetic on timestamps is exact at
the scales involved.
-/

namespace FIM

/-- Code-point comparison of two strings in char-list form: the order Python
uses to compare `str` values. -/
def lexLe : List Char → List Char → Bool
  | [], _ => true
  | _ :: _, [] => false
  | a :: as, b :: bs =>
    if a.toNat < b.toNat then true
    else if b.toNat < a.toNat then false
    else lexLe as bs

/-- The string order used by Python `sorted` on path strings. -/
def strRel (a b : String) : Prop := lexLe a.data b.data = true

instance : DecidableRel strRel :=
  fun a b => inferInstanceAs (Decidable (lexLe a.data b.data = true))

/-- Python `sorted` on a list of distinct strings. -/
def sortedStrings (l : List String) : List String := List.insertionSort strRel l

/-- Lookup in a Python dict modelled as an association list (`d.get(p)` /
`d[p]`). -/
def dget {α : Type} : List (String × α) → String → Option α
  | [], _ => none
  | (k, v) :: rest, p => if k = p then some v else dget rest p

/-- Python dict assignment `d[p] = v`: update in place if the key is present,
else append at the end. -/
def dset {α : Type} : List (String × α) → String → α → List (String × α)
  | [], p, v => [(p, v)]
  | (k, w) :: rest, p, v => if k = p then (k, v) :: rest else (k, w) :: dset rest p v

/-- src/fim/baseline.py, class BaselineRecord: immutable record of a file's
trusted state.  `mtime` (a Python float) is modelled as a rational. -/
structure BaselineRecord where
  path : String
  hash : String
  size : Nat
  mtime : ℚ
deriving DecidableEq, Repr

/-- src/fim/monitor.py, class Change: a detected change; the `details` dict
is an association list. -/
structure Change where
  change_type : String
  path : String
  details : List (String × String)
deriving DecidableEq, Repr

/-- src/fim/config.py, class Config: typed configuration.  Paths are opaque
strings (expanduser/resolve normalization is outside the model). -/
structure Config where
  paths : List String
  exclude_globs : List String
  follow_symlinks : Bool
  hash_algorithm : String
  baseline_file : String
  log_file : String
  scan_interval_seconds : Int
  event_debounce_ms : Int
deriving DecidableEq, Repr

/-- The already-parsed content of config.json as read by load_config; a field
whose key is missing from the JSON object is `none`. -/
structure ConfigData where
  paths : List String
  exclude_globs : List String
  follow_symlinks : Bool
  hash_algorithm : Option String
  baseline_file : Option String
  log_file : Option String
  scan_interval_seconds : Option Int
  event_debounce_ms : Option Int
deriving DecidableEq, Repr

/-- src/fim/config.py, load_config: validates only that `paths` is non-empty
and fills defaults; the hash algorithm string is passed through unchecked. -/
def load_config (data : ConfigData) : Except String Config :=
  if data.paths = [] then Except.error "Config must include at least one path."
  else
    Except.ok
      { paths := data.paths
        exclude_globs := data.exclude_globs
        follow_symlinks := data.follow_symlinks
        hash_algorithm := data.hash_algorithm.getD "sha256"
        baseline_file := data.baseline_file.getD "./baseline.json"
        log_file := data.log_file.getD "./logs/fim.log"
        scan_interval_seconds := data.scan_interval_seconds.getD 60
        event_debounce_ms := data.event_debounce_ms.getD 250 }

/-- Failures of src/fim/utils.py compute_file_hash: `hashlib.new` raises
ValueError for an unknown algorithm name; opening or reading the file raises
OSError. -/
inductive HashError where
  | unsupportedAlgorithm
  | ioError
deriving DecidableEq, Repr

/-- hashlib.algorithms_guaranteed: the algorithm names `hashlib.new` always
accepts. -/
def supportedAlgorithms : List String :=
  ["blake2b", "blake2s", "md5", "sha1", "sha224", "sha256", "sha384",
   "sha3_224", "sha3_256", "sha3_384", "sha3_512", "sha512",
   "shake_128", "shake_256"]

/-- Oracle for compute_file_hash: whether the file can be opened and fully
read, and the digest its bytes produce under a given algorithm. -/
structure HashFS where
  readable : String → Bool
  digest : String → String → String

/-- src/fim/utils.py, compute_file_hash: `hashlib.new(algorithm)` is
evaluated first (unsupported-algorithm error), then the file is opened and
streamed (I/O error), producing the hex digest. -/
def compute_file_hash (fs : HashFS) (path : String) (algorithm : String) :
    Except HashError String :=
  if supportedAlgorithms.contains algorithm then
    if fs.readable path then Except.ok (fs.digest algorithm path)
    else Except.error HashError.ioError
  else Except.error HashError.unsupportedAlgorithm

/-- `m[p].hash` for a key `p` of the mapping; keys handed to it always come
from the mapping, so the `""` default is never reached there. -/
def hashOf (m : List (String × BaselineRecord)) : String → String :=
  fun p => ((dget m p).map (fun r => r.hash)).getD ""

/-- src/fim/monitor.py, compare_baseline: `sorted(current_paths -
baseline_paths)`. -/
def createdKeys (baseline current : List (String × BaselineRecord)) : List String :=
  sortedStrings ((current.map Prod.fst).filter (fun p => decide (p ∉ baseline.map Prod.fst)))

/-- src/fim/monitor.py, compare_baseline: `sorted(baseline_paths -
current_paths)`. -/
def deletedKeys (baseline current : List (String × BaselineRecord)) : List String :=
  sortedStrings ((baseline.map Prod.fst).filter (fun p => decide (p ∉ current.map Prod.fst)))

/-- src/fim/monitor.py, compare_baseline: `sorted(baseline_paths &
current_paths)`. -/
def commonKeys (baseline current : List (String × BaselineRecord)) : List String :=
  sortedStrings ((baseline.map Prod.fst).filter (fun p => decide (p ∈ current.map Prod.fst)))

/-- src/fim/monitor.py, compare_baseline: the common paths whose baseline and
current hashes differ. -/
def modifiedKeys (baseline current : List (String × BaselineRecord)) : List String :=
  (commonKeys baseline current).filter (fun p => decide (hashOf baseline p ≠ hashOf current p))

/-- src/fim/monitor.py, compare_baseline: created, then deleted, then
modified, each group sorted by path. -/
def compare_baseline (baseline current : List (String × BaselineRecord)) : List Change :=
  ((createdKeys baseline current).map
      (fun p => Change.mk "created" p [("hash", hashOf current p)]))
    ++ ((deletedKeys baseline current).map
      (fun p => Change.mk "deleted" p [("hash", hashOf baseline p)]))
    ++ ((modifiedKeys baseline current).map
      (fun p => Change.mk "modified" p [("before", hashOf baseline p), ("after", hashOf current p)]))

/-- Oracle for build_event_change: `path.exists()` and the outcome of
re-hashing a path with a given algorithm (`error` models OSError). -/
structure DiskState where
  pathExists : String → Bool
  hashResult : String → String → Except String String

/-- src/fim/monitor.py, build_event_change: classify a single path event
against the baseline. -/
def build_event_change (baseline : List (String × BaselineRecord)) (path : String)
    (config : Config) (disk : DiskState) : List Change :=
  if disk.pathExists path = false then
    match dget baseline path with
    | some r => [Change.mk "deleted" path [("hash", r.hash)]]
    | none => []
  else
    match disk.hashResult path config.hash_algorithm with
    | Except.error _ => []
    | Except.ok file_hash =>
      match dget baseline path with
      | none => [Change.mk "created" path [("hash", file_hash)]]
      | some baseline_record =>
        if baseline_record.hash ≠ file_hash then
          [Change.mk "modified" path
            [("before", baseline_record.hash), ("after", file_hash)]]
        else []

/-- Oracle for the walk shared by build_baseline and snapshot: iter_files,
should_exclude, compute_file_hash and Path.stat, the last two fallible
(`error` models OSError). -/
structure WalkFS where
  iterFiles : String → Bool → List String
  shouldExclude : String → String → List String → Bool
  hashResult : String → String → Except String String
  statResult : String → Except String (Nat × ℚ)

/-- src/fim/baseline.py, build_baseline: walk the configured roots, hash and
stat each non-excluded file, skip a file on I/O failure. -/
def build_baseline (fs : WalkFS) (config : Config) : List (String × BaselineRecord) :=
  config.paths.foldl
    (fun acc root =>
      (fs.iterFiles root config.follow_symlinks).foldl
        (fun acc2 path =>
          if fs.shouldExclude path root config.exclude_globs then acc2
          else
            match fs.hashResult path config.hash_algorithm with
            | Except.error _ => acc2
            | Except.ok file_hash =>
              match fs.statResult path with
              | Except.error _ => acc2
              | Except.ok s => dset acc2 path (BaselineRecord.mk path file_hash s.1 s.2))
        acc)
    []

/-- src/fim/monitor.py, snapshot: identical walk to build_baseline, producing
the current observed state. -/
def snapshot (fs : WalkFS) (config : Config) : List (String × BaselineRecord) :=
  config.paths.foldl
    (fun acc root =>
      (fs.iterFiles root config.follow_symlinks).foldl
        (fun acc2 path =>
          if fs.shouldExclude path root config.exclude_globs then acc2
          else
            match fs.hashResult path config.hash_algorithm with
            | Except.error _ => acc2
            | Except.ok file_hash =>
              match fs.statResult path with
              | Except.error _ => acc2
              | Except.ok s => dset acc2 path (BaselineRecord.mk path file_hash s.1 s.2))
        acc)
    []

/-- The JSON object `asdict(record)` produces inside the baseline file. -/
structure RecordJson where
  jpath : String
  jhash : String
  jsize : Nat
  jmtime : ℚ
deriving DecidableEq, Repr

/-- dataclasses.asdict on a BaselineRecord. -/
def asdict (r : BaselineRecord) : RecordJson := RecordJson.mk r.path r.hash r.size r.mtime

/-- Order on baseline-file entries used by `json.dumps(..., sort_keys=True)`. -/
def keyRel (a b : String × RecordJson) : Prop := strRel a.1 b.1

instance : DecidableRel keyRel := fun a b => inferInstanceAs (Decidable (strRel a.1 b.1))

/-- src/fim/baseline.py, save_baseline: the JSON object written to disk,
keyed by path and sorted by key. -/
def save_baseline (records : List (String × BaselineRecord)) : List (String × RecordJson) :=
  List.insertionSort keyRel (records.map (fun kr => (kr.1, asdict kr.2)))

/-- src/fim/baseline.py, load_baseline: rebuild each BaselineRecord from the
four fields of its JSON object. -/
def load_baseline (data : List (String × RecordJson)) : List (String × BaselineRecord) :=
  data.map (fun kr => (kr.1, BaselineRecord.mk kr.2.jpath kr.2.jhash kr.2.jsize kr.2.jmtime))

/-- src/fim/reporting.py, format_change: `none` models a KeyError raised by
indexing a missing key of the details dict. -/
def format_change (change : Change) : Option String :=
  if change.change_type = "modified" then
    match dget change.details "before", dget change.details "after" with
    | some b, some a =>
      some ("MODIFIED " ++ change.path ++ " before=" ++ b ++ " after=" ++ a)
    | _, _ => none
  else if change.change_type = "created" then
    (dget change.details "hash").map (fun h => "CREATED " ++ change.path ++ " hash=" ++ h)
  else if change.change_type = "deleted" then
    (dget change.details "hash").map (fun h => "DELETED " ++ change.path ++ " hash=" ++ h)
  else if change.change_type = "moved" then
    match dget change.details "from", dget change.details "to" with
    | some src, some dst =>
      some ("MOVED " ++ src ++ " -> " ++ dst ++ " hash=" ++ ((dget change.details "hash").getD ""))
    | _, _ => none
  else some (change.change_type.toUpper ++ " " ++ change.path)

/-- src/fim/cli.py, Handler._debounced: given the debounce window, the
`_last_event` table and an event's path and `time.monotonic()` value, return
(rejected?, updated table).  A missing table entry defaults to 0; a rejected
event leaves the table unchanged. -/
def debounced (debounce_ms : Int) (last_event : List (String × ℚ)) (path : String)
    (now : ℚ) : Bool × List (String × ℚ) :=
  let last := (dget last_event path).getD 0
  if (now - last) * 1000 < (debounce_ms : ℚ) then (true, last_event)
  else (false, dset last_event path now)

/-- src/fim/cli.py, Handler.on_any_event over a sequence of file events
(timestamp, path): each event is annotated with its debounce verdict
(`true` = rejected, `false` = classifier invoked), threading the table. -/
def processEvents (debounce_ms : Int) :
    List (String × ℚ) → List (ℚ × String) → List (ℚ × String × Bool)
  | _, [] => []
  | table, (t, p) :: rest =>
    let r := debounced debounce_ms table p t
    (t, p, r.1) :: processEvents debounce_ms r.2 rest

/-- Projection of a baseline entry that forgets `size` and `mtime`, keeping
the dict key and the record's `path` and `hash`. -/
def stripSizeMtime (kr : String × BaselineRecord) : String × String × String :=
  (kr.1, kr.2.path, kr.2.hash)

/-- Position of a change type in compare_baseline output: created, deleted,
then modified. -/
def typeRank (t : String) : Nat :=
  if t = "created" then 0 else if t = "deleted" then 1 else 2

/-- The baseline of tests/test_monitor.py, reused as concrete data. -/
def sampleBaseline : List (String × BaselineRecord) :=
  [("/path/deleted.txt", BaselineRecord.mk "/path/deleted.txt" "oldhash" 10 1),
   ("/path/modified.txt", BaselineRecord.mk "/path/modified.txt" "oldhash" 11 2)]

/-- The current snapshot of tests/test_monitor.py, reused as concrete data. -/
def sampleCurrent : List (String × BaselineRecord) :=
  [("/path/created.txt", BaselineRecord.mk "/path/created.txt" "newhash" 12 3),
   ("/path/modified.txt", BaselineRecord.mk "/path/modified.txt" "newhash" 11 4)]

/-- A sample configuration with default-like fields. -/
def sampleConfig : Config :=
  Config.mk ["/path"] [] false "sha256" "./baseline.json" "./logs/fim.log" 60 250

/-- sampleBaseline with every size and mtime field changed. -/
def sampleBaselinePerturbed : List (String × BaselineRecord) :=
  [("/path/deleted.txt", BaselineRecord.mk "/path/deleted.txt" "oldhash" 999 77),
   ("/path/modified.txt", BaselineRecord.mk "/path/modified.txt" "oldhash" 998 78)]

/-- sampleCurrent with every size and mtime field changed. -/
def sampleCurrentPerturbed : List (String × BaselineRecord) :=
  [("/path/created.txt", BaselineRecord.mk "/path/created.txt" "newhash" 997 79),
   ("/path/modified.txt", BaselineRecord.mk "/path/modified.txt" "newhash" 996 80)]

theorem lexLe_total (as : List Char) : ∀ bs : List Char, lexLe as bs = true ∨ lexLe bs as = true := by
  induction as with
  | nil => intro bs; left; rfl
  | cons a as ih =>
    intro bs
    cases bs with
    | nil => right; rfl
    | cons b bs =>
      rcases Nat.lt_trichotomy a.toNat b.toNat with h | h | h
      · left; simp [lexLe, h]
      · rcases ih bs with h1 | h1
        · left; simp [lexLe, h, Nat.lt_irrefl, h1]
        · right; simp [lexLe, h, Nat.lt_irrefl, h1]
      · right; simp [lexLe, h]

theorem lexLe_trans (as : List Char) :
    ∀ bs cs : List Char, lexLe as bs = true → lexLe bs cs = true → lexLe as cs = true := by
  induction as with
  | nil => intro bs cs _ _; rfl
  | cons a as ih =>
    intro bs cs h1 h2
    cases bs with
    | nil => simp [lexLe] at h1
    | cons b bs =>
      cases cs with
      | nil => simp [lexLe] at h2
      | cons c cs =>
        simp only [lexLe] at h1 h2 ⊢
        split_ifs at h1 h2 ⊢ <;>
          first | rfl | omega | exact ih bs cs h1 h2

theorem strRel_total (a b : String) : strRel a b ∨ strRel b a := lexLe_total a.data b.data

theorem strRel_trans (a b c : String) : strRel a b → strRel b c → strRel a c :=
  lexLe_trans a.data b.data c.data

theorem sortedStrings_perm (l : List String) : (sortedStrings l).Perm l :=
  List.perm_insertionSort strRel l

theorem mem_sortedStrings {q : String} {l : List String} : q ∈ sortedStrings l ↔ q ∈ l :=
  (sortedStrings_perm l).mem_iff

theorem nodup_sortedStrings {l : List String} (h : l.Nodup) : (sortedStrings l).Nodup :=
  ((sortedStrings_perm l).nodup_iff).mpr h

theorem sorted_sortedStrings (l : List String) : (sortedStrings l).Pairwise strRel := by
  haveI : IsTotal String strRel := ⟨strRel_total⟩
  haveI : IsTrans String strRel := ⟨strRel_trans⟩
  exact List.sorted_insertionSort strRel l

theorem dget_eq_none_iff {α : Type} (l : List (String × α)) (p : String) :
    dget l p = none ↔ p ∉ l.map Prod.fst := by
  induction l with
  | nil => simp [dget]
  | cons kv rest ih =>
    obtain ⟨k, v⟩ := kv
    by_cases h : k = p
    · subst h; simp [dget]
    · have hpk : ¬p = k := fun hh => h hh.symm
      simp [dget, h, ih, hpk]

theorem dget_mem {α : Type} {l : List (String × α)} {p : String} {v : α}
    (h : dget l p = some v) : (p, v) ∈ l := by
  induction l with
  | nil => simp [dget] at h
  | cons kv rest ih =>
    obtain ⟨k, w⟩ := kv
    by_cases hk : k = p
    · subst hk
      have hwv : w = v := by simpa [dget] using h
      subst hwv
      exact List.mem_cons_self _ _
    · simp only [dget, if_neg hk] at h
      exact List.mem_cons.mpr (Or.inr (ih h))

theorem dget_of_mem {α : Type} {l : List (String × α)} {p : String} {v : α}
    (hnd : (l.map Prod.fst).Nodup) (h : (p, v) ∈ l) : dget l p = some v := by
  induction l with
  | nil => simp at h
  | cons kv rest ih =>
    obtain ⟨k, w⟩ := kv
    simp only [List.map_cons, List.nodup_cons] at hnd
    rcases List.mem_cons.mp h with h0 | h0
    · rw [Prod.ext_iff] at h0
      obtain ⟨hk, hv⟩ := h0
      simp only at hk hv
      subst hk; subst hv
      simp [dget]
    · have hk : k ≠ p := by
        rintro rfl
        exact hnd.1 (List.mem_map.mpr ⟨(k, v), h0, rfl⟩)
      simp [dget, hk, ih hnd.2 h0]

theorem dget_perm {α : Type} {l₁ l₂ : List (String × α)} (h : l₁.Perm l₂)
    (hnd : (l₁.map Prod.fst).Nodup) (p : String) : dget l₁ p = dget l₂ p := by
  have hnd₂ : (l₂.map Prod.fst).Nodup := ((h.map Prod.fst).nodup_iff).mp hnd
  cases e : dget l₁ p with
  | none =>
    have : p ∉ l₂.map Prod.fst := fun hp =>
      ((dget_eq_none_iff l₁ p).mp e) ((h.map Prod.fst).mem_iff.mpr hp)
    exact ((dget_eq_none_iff l₂ p).mpr this).symm
  | some v =>
    exact (dget_of_mem hnd₂ (h.mem_iff.mp (dget_mem e))).symm

theorem dget_dset_self {α : Type} (l : List (String × α)) (k : String) (v : α) :
    dget (dset l k v) k = some v := by
  induction l with
  | nil => simp [dget, dset]
  | cons kw rest ih =>
    obtain ⟨k', w⟩ := kw
    by_cases h : k' = k
    · subst h; simp [dget, dset]
    · simp [dget, dset, h, ih]

theorem dget_dset_ne {α : Type} (l : List (String × α)) {k p : String} (v : α)
    (h : k ≠ p) : dget (dset l k v) p = dget l p := by
  induction l with
  | nil => simp [dget, dset, h]
  | cons kw rest ih =>
    obtain ⟨k', w⟩ := kw
    by_cases h' : k' = k
    · subst h'; simp [dget, dset, h]
    · simp [dget, dset, h', ih]

theorem filter_beq_of_not_mem {l : List String} {p : String} (h : p ∉ l) :
    l.filter (fun q => q == p) = [] := by
  induction l with
  | nil => rfl
  | cons a as ih =>
    simp only [List.mem_cons, not_or] at h
    have hap : ¬a = p := fun hh => h.1 hh.symm
    simp [List.filter_cons, hap, ih h.2]

theorem filter_beq_of_nodup_mem {l : List String} {p : String} (hnd : l.Nodup)
    (h : p ∈ l) : l.filter (fun q => q == p) = [p] := by
  induction l with
  | nil => simp at h
  | cons a as ih =>
    simp only [List.nodup_cons] at hnd
    rcases List.mem_cons.mp h with h0 | h0
    · subst h0
      simp [List.filter_cons, filter_beq_of_not_mem hnd.1]
    · have ha : a ≠ p := by rintro rfl; exact hnd.1 h0
      simp [List.filter_cons, ha, ih hnd.2 h0]

theorem mem_createdKeys {B C : List (String × BaselineRecord)} {q : String} :
    q ∈ createdKeys B C ↔ q ∈ C.map Prod.fst ∧ q ∉ B.map Prod.fst := by
  simp [createdKeys, mem_sortedStrings, List.mem_filter]

theorem mem_deletedKeys {B C : List (String × BaselineRecord)} {q : String} :
    q ∈ deletedKeys B C ↔ q ∈ B.map Prod.fst ∧ q ∉ C.map Prod.fst := by
  simp [deletedKeys, mem_sortedStrings, List.mem_filter]

theorem mem_commonKeys {B C : List (String × BaselineRecord)} {q : String} :
    q ∈ commonKeys B C ↔ q ∈ B.map Prod.fst ∧ q ∈ C.map Prod.fst := by
  simp [commonKeys, mem_sortedStrings, List.mem_filter]

theorem mem_modifiedKeys {B C : List (String × BaselineRecord)} {q : String} :
    q ∈ modifiedKeys B C ↔
      (q ∈ B.map Prod.fst ∧ q ∈ C.map Prod.fst) ∧ hashOf B q ≠ hashOf C q := by
  simp [modifiedKeys, List.mem_filter, mem_commonKeys]

theorem nodup_createdKeys {B C : List (String × BaselineRecord)}
    (hC : (C.map Prod.fst).Nodup) : (createdKeys B C).Nodup :=
  nodup_sortedStrings (hC.filter _)

theorem nodup_deletedKeys {B C : List (String × BaselineRecord)}
    (hB : (B.map Prod.fst).Nodup) : (deletedKeys B C).Nodup :=
  nodup_sortedStrings (hB.filter _)

theorem nodup_commonKeys {B C : List (String × BaselineRecord)}
    (hB : (B.map Prod.fst).Nodup) : (commonKeys B C).Nodup :=
  nodup_sortedStrings (hB.filter _)

theorem nodup_modifiedKeys {B C : List (String × BaselineRecord)}
    (hB : (B.map Prod.fst).Nodup) : (modifiedKeys B C).Nodup :=
  (nodup_commonKeys hB).filter _

theorem filter_path_compare (B C : List (String × BaselineRecord)) (p : String) :
    (compare_baseline B C).filter (fun c => c.path == p) =
      ((createdKeys B C).filter (fun q => q == p)).map
          (fun q => Change.mk "created" q [("hash", hashOf C q)])
        ++ ((deletedKeys B C).filter (fun q => q == p)).map
          (fun q => Change.mk "deleted" q [("hash", hashOf B q)])
        ++ ((modifiedKeys B C).filter (fun q => q == p)).map
          (fun q => Change.mk "modified" q [("before", hashOf B q), ("after", hashOf C q)]) := by
  simp only [compare_baseline, List.filter_append, List.filter_map]
  rfl

theorem filter_compare_of_created {B C : List (String × BaselineRecord)} {p : String}
    (hC : (C.map Prod.fst).Nodup) (hpC : p ∈ C.map Prod.fst) (hpB : p ∉ B.map Prod.fst) :
    (compare_baseline B C).filter (fun c => c.path == p) =
      [Change.mk "created" p [("hash", hashOf C p)]] := by
  rw [filter_path_compare,
    filter_beq_of_nodup_mem (nodup_createdKeys hC) (mem_createdKeys.mpr ⟨hpC, hpB⟩),
    filter_beq_of_not_mem (fun hm => hpB (mem_deletedKeys.mp hm).1),
    filter_beq_of_not_mem (fun hm => hpB (mem_modifiedKeys.mp hm).1.1)]
  simp

theorem filter_compare_of_deleted {B C : List (String × BaselineRecord)} {p : String}
    (hB : (B.map Prod.fst).Nodup) (hpB : p ∈ B.map Prod.fst) (hpC : p ∉ C.map Prod.fst) :
    (compare_baseline B C).filter (fun c => c.path == p) =
      [Change.mk "deleted" p [("hash", hashOf B p)]] := by
  rw [filter_path_compare,
    filter_beq_of_not_mem (fun hm => hpC (mem_createdKeys.mp hm).1),
    filter_beq_of_nodup_mem (nodup_deletedKeys hB) (mem_deletedKeys.mpr ⟨hpB, hpC⟩),
    filter_beq_of_not_mem (fun hm => hpC (mem_modifiedKeys.mp hm).1.2)]
  simp

theorem filter_compare_of_modified {B C : List (String × BaselineRecord)} {p : String}
    (hB : (B.map Prod.fst).Nodup) (hpB : p ∈ B.map Prod.fst) (hpC : p ∈ C.map Prod.fst)
    (hne : hashOf B p ≠ hashOf C p) :
    (compare_baseline B C).filter (fun c => c.path == p) =
      [Change.mk "modified" p [("before", hashOf B p), ("after", hashOf C p)]] := by
  rw [filter_path_compare,
    filter_beq_of_not_mem (fun hm => (mem_createdKeys.mp hm).2 hpB),
    filter_beq_of_not_mem (fun hm => (mem_deletedKeys.mp hm).2 hpC),
    filter_beq_of_nodup_mem (nodup_modifiedKeys hB) (mem_modifiedKeys.mpr ⟨⟨hpB, hpC⟩, hne⟩)]
  simp

theorem filter_compare_of_unchanged {B C : List (String × BaselineRecord)} {p : String}
    (hpB : p ∈ B.map Prod.fst) (hpC : p ∈ C.map Prod.fst)
    (heq : hashOf B p = hashOf C p) :
    (compare_baseline B C).filter (fun c => c.path == p) = [] := by
  rw [filter_path_compare,
    filter_beq_of_not_mem (fun hm => (mem_createdKeys.mp hm).2 hpB),
    filter_beq_of_not_mem (fun hm => (mem_deletedKeys.mp hm).2 hpC),
    filter_beq_of_not_mem (fun hm => (mem_modifiedKeys.mp hm).2 heq)]
  simp

theorem filter_compare_of_absent {B C : List (String × BaselineRecord)} {p : String}
    (hpB : p ∉ B.map Prod.fst) (hpC : p ∉ C.map Prod.fst) :
    (compare_baseline B C).filter (fun c => c.path == p) = [] := by
  rw [filter_path_compare,
    filter_beq_of_not_mem (fun hm => hpC (mem_createdKeys.mp hm).1),
    filter_beq_of_not_mem (fun hm => hpB (mem_deletedKeys.mp hm).1),
    filter_beq_of_not_mem (fun hm => hpB (mem_modifiedKeys.mp hm).1.1)]
  simp

/-- C1: for baseline B and current C (as path-keyed mappings), compare_baseline
emits exactly one created Change with the current hash for each path only in
C, exactly one deleted Change with the baseline hash for each path only in B,
exactly one modified Change with before/after hashes for each common path
whose hashes differ, and no Change for a common path with equal hashes. -/
theorem compare_baseline_partition (B C : List (String × BaselineRecord))
    (hB : (B.map Prod.fst).Nodup) (hC : (C.map Prod.fst).Nodup) (p : String) :
    ((p ∈ C.map Prod.fst ∧ p ∉ B.map Prod.fst) →
        (compare_baseline B C).filter (fun c => c.path == p) =
          [Change.mk "created" p [("hash", hashOf C p)]]) ∧
    ((p ∈ B.map Prod.fst ∧ p ∉ C.map Prod.fst) →
        (compare_baseline B C).filter (fun c => c.path == p) =
          [Change.mk "deleted" p [("hash", hashOf B p)]]) ∧
    ((p ∈ B.map Prod.fst ∧ p ∈ C.map Prod.fst ∧ hashOf B p ≠ hashOf C p) →
        (compare_baseline B C).filter (fun c => c.path == p) =
          [Change.mk "modified" p [("before", hashOf B p), ("after", hashOf C p)]]) ∧
    ((p ∈ B.map Prod.fst ∧ p ∈ C.map Prod.fst ∧ hashOf B p = hashOf C p) →
        (compare_baseline B C).filter (fun c => c.path == p) = []) :=
  ⟨fun h => filter_compare_of_created hC h.1 h.2,
   fun h => filter_compare_of_deleted hB h.1 h.2,
   fun h => filter_compare_of_modified hB h.1 h.2.1 h.2.2,
   fun h => filter_compare_of_unchanged h.1 h.2.1 h.2.2⟩

/-- Witness for C1 on the repository's own unit-test data. -/
theorem compare_baseline_partition_witness :
    (compare_baseline sampleBaseline sampleCurrent).filter
        (fun c => c.path == "/path/created.txt") =
      [Change.mk "created" "/path/created.txt" [("hash", hashOf sampleCurrent "/path/created.txt")]] :=
  (compare_baseline_partition sampleBaseline sampleCurrent (by decide) (by decide)
    "/path/created.txt").1 ⟨by decide, by decide⟩

/-- C7: compare_baseline emits at most one Change per path. -/
theorem compare_baseline_at_most_one_per_path (B C : List (String × BaselineRecord))
    (hB : (B.map Prod.fst).Nodup) (hC : (C.map Prod.fst).Nodup) (p : String) :
    ((compare_baseline B C).filter (fun c => c.path == p)).length ≤ 1 := by
  by_cases hpB : p ∈ B.map Prod.fst <;> by_cases hpC : p ∈ C.map Prod.fst
  · by_cases hh : hashOf B p = hashOf C p
    · rw [filter_compare_of_unchanged hpB hpC hh]; simp
    · rw [filter_compare_of_modified hB hpB hpC hh]; simp
  · rw [filter_compare_of_deleted hB hpB hpC]; simp
  · rw [filter_compare_of_created hC hpC hpB]; simp
  · rw [filter_compare_of_absent hpB hpC]; simp

/-- Witness for C7 on the repository's own unit-test data. -/
theorem compare_baseline_at_most_one_per_path_witness :
    ((compare_baseline sampleBaseline sampleCurrent).filter
        (fun c => c.path == "/path/modified.txt")).length ≤ 1 :=
  compare_baseline_at_most_one_per_path sampleBaseline sampleCurrent
    (by decide) (by decide) "/path/modified.txt"

theorem sorted_modifiedKeys (B C : List (String × BaselineRecord)) :
    (modifiedKeys B C).Pairwise strRel :=
  (sorted_sortedStrings _).filter _

/-- C3: the compare_baseline output is deterministically ordered: created
Changes precede deleted Changes precede modified Changes, and within a group
Changes are strictly sorted by path in the lexicographic string order. -/
theorem compare_baseline_ordered (B C : List (String × BaselineRecord))
    (hB : (B.map Prod.fst).Nodup) (hC : (C.map Prod.fst).Nodup) :
    (compare_baseline B C).Pairwise (fun a b =>
      typeRank a.change_type < typeRank b.change_type ∨
      (a.change_type = b.change_type ∧ strRel a.path b.path ∧ a.path ≠ b.path)) := by
  unfold compare_baseline
  rw [List.pairwise_append]
  refine ⟨?_, ?_, ?_⟩
  · rw [List.pairwise_append]
    refine ⟨?_, ?_, ?_⟩
    · rw [List.pairwise_map]
      refine ((sorted_sortedStrings _).and (nodup_createdKeys hC)).imp ?_
      intro a b hab
      exact Or.inr ⟨rfl, hab.1, hab.2⟩
    · rw [List.pairwise_map]
      refine ((sorted_sortedStrings _).and (nodup_deletedKeys hB)).imp ?_
      intro a b hab
      exact Or.inr ⟨rfl, hab.1, hab.2⟩
    · intro a ha b hb
      obtain ⟨qa, _, rfl⟩ := List.mem_map.mp ha
      obtain ⟨qb, _, rfl⟩ := List.mem_map.mp hb
      exact Or.inl (by simp [typeRank])
  · rw [List.pairwise_map]
    refine ((sorted_modifiedKeys B C).and (nodup_modifiedKeys hB)).imp ?_
    intro a b hab
    exact Or.inr ⟨rfl, hab.1, hab.2⟩
  · intro a ha b hb
    obtain ⟨qb, _, rfl⟩ := List.mem_map.mp hb
    rcases List.mem_append.mp ha with ha' | ha'
    · obtain ⟨qa, _, rfl⟩ := List.mem_map.mp ha'
      exact Or.inl (by simp [typeRank])
    · obtain ⟨qa, _, rfl⟩ := List.mem_map.mp ha'
      exact Or.inl (by simp [typeRank])

/-- Witness for C3 on the repository's own unit-test data. -/
theorem compare_baseline_ordered_witness :
    (compare_baseline sampleBaseline sampleCurrent).Pairwise (fun a b =>
      typeRank a.change_type < typeRank b.change_type ∨
      (a.change_type = b.change_type ∧ strRel a.path b.path ∧ a.path ≠ b.path)) :=
  compare_baseline_ordered sampleBaseline sampleCurrent (by decide) (by decide)

theorem keys_strip_congr {l₁ l₂ : List (String × BaselineRecord)}
    (h : l₁.map stripSizeMtime = l₂.map stripSizeMtime) :
    l₁.map Prod.fst = l₂.map Prod.fst := by
  induction l₁ generalizing l₂ with
  | nil => cases l₂ with
    | nil => rfl
    | cons b bs => simp at h
  | cons a as ih =>
    cases l₂ with
    | nil => simp at h
    | cons b bs =>
      simp only [List.map_cons, List.cons.injEq] at h ⊢
      obtain ⟨hhead, htail⟩ := h
      simp only [stripSizeMtime, Prod.mk.injEq] at hhead
      exact ⟨hhead.1, ih htail⟩

theorem dget_strip_congr {l₁ l₂ : List (String × BaselineRecord)}
    (h : l₁.map stripSizeMtime = l₂.map stripSizeMtime) (p : String) :
    (dget l₁ p).map (fun r => r.hash) = (dget l₂ p).map (fun r => r.hash) := by
  induction l₁ generalizing l₂ with
  | nil => cases l₂ with
    | nil => rfl
    | cons b bs => simp at h
  | cons a as ih =>
    cases l₂ with
    | nil => simp at h
    | cons b bs =>
      obtain ⟨k, r⟩ := a
      obtain ⟨k', r'⟩ := b
      simp only [List.map_cons, List.cons.injEq] at h
      obtain ⟨hhead, htail⟩ := h
      simp only [stripSizeMtime, Prod.mk.injEq] at hhead
      obtain ⟨hk, _, hhash⟩ := hhead
      subst hk
      by_cases hkp : k = p
      · simp [dget, hkp, hhash]
      · simp [dget, hkp, ih htail]

theorem hashOf_strip_congr {l₁ l₂ : List (String × BaselineRecord)}
    (h : l₁.map stripSizeMtime = l₂.map stripSizeMtime) : hashOf l₁ = hashOf l₂ :=
  funext fun p => by unfold hashOf; rw [dget_strip_congr h p]

/-- C6: compare_baseline depends only on the paths and hash fields of the two
mappings; records may change size and mtime arbitrarily without affecting the
diff (two-run noninterference). -/
theorem compare_baseline_ignores_size_mtime
    (B C B' C' : List (String × BaselineRecord))
    (hB : B'.map stripSizeMtime = B.map stripSizeMtime)
    (hC : C'.map stripSizeMtime = C.map stripSizeMtime) :
    compare_baseline B' C' = compare_baseline B C := by
  have kB := keys_strip_congr hB
  have kC := keys_strip_congr hC
  have hhB := hashOf_strip_congr hB
  have hhC := hashOf_strip_congr hC
  unfold compare_baseline createdKeys deletedKeys modifiedKeys commonKeys
  rw [kB, kC, hhB, hhC]

/-- Witness for C6: perturbing every size and mtime of the unit-test data
leaves the diff unchanged. -/
theorem compare_baseline_ignores_size_mtime_witness :
    compare_baseline sampleBaselinePerturbed sampleCurrentPerturbed =
      compare_baseline sampleBaseline sampleCurrent :=
  compare_baseline_ignores_size_mtime sampleBaseline sampleCurrent
    sampleBaselinePerturbed sampleCurrentPerturbed (by decide) (by decide)

theorem load_save_perm (B : List (String × BaselineRecord)) :
    (load_baseline (save_baseline B)).Perm B := by
  unfold load_baseline save_baseline
  have h1 : (List.insertionSort keyRel (B.map (fun kr => (kr.1, asdict kr.2)))).Perm
      (B.map (fun kr => (kr.1, asdict kr.2))) := List.perm_insertionSort _ _
  have h2 := h1.map (fun kr : String × RecordJson =>
    (kr.1, BaselineRecord.mk kr.2.jpath kr.2.jhash kr.2.jsize kr.2.jmtime))
  rw [List.map_map] at h2
  have h3 : ((fun kr : String × RecordJson =>
        (kr.1, BaselineRecord.mk kr.2.jpath kr.2.jhash kr.2.jsize kr.2.jmtime)) ∘
      (fun kr : String × BaselineRecord => (kr.1, asdict kr.2))) =
      (id : String × BaselineRecord → String × BaselineRecord) := by
    funext kr; rfl
  rw [h3, List.map_id] at h2
  exact h2

/-- C5: saving a non-empty baseline and loading the written file yields the
same mapping: every lookup (hence every key and every record field) is
preserved. -/
theorem baseline_roundtrip (B : List (String × BaselineRecord))
    (hnd : (B.map Prod.fst).Nodup) (hne : B ≠ []) (p : String) :
    dget (load_baseline (save_baseline B)) p = dget B p := by
  have hperm := load_save_perm B
  have hnd' : ((load_baseline (save_baseline B)).map Prod.fst).Nodup :=
    ((hperm.map Prod.fst).nodup_iff).mpr hnd
  exact dget_perm hperm hnd' p

/-- Witness for C5 on the repository's own unit-test data. -/
theorem baseline_roundtrip_witness :
    dget (load_baseline (save_baseline sampleBaseline)) "/path/modified.txt" =
      dget sampleBaseline "/path/modified.txt" :=
  baseline_roundtrip sampleBaseline (by decide) (by decide) "/path/modified.txt"

/-- C2: build_event_change on a path event: path gone from disk gives one
deleted Change with the baseline hash when tracked and nothing when
untracked; path present is re-hashed, giving one created Change when
untracked, one modified Change with before/after hashes when the hash
differs, nothing when it matches, and nothing (after a log line) when the
re-hash raises an I/O error. -/
theorem build_event_change_spec (B : List (String × BaselineRecord)) (p : String)
    (config : Config) (disk : DiskState) :
    (disk.pathExists p = false →
        (∀ r, dget B p = some r →
            build_event_change B p config disk =
              [Change.mk "deleted" p [("hash", r.hash)]]) ∧
        (dget B p = none → build_event_change B p config disk = [])) ∧
    (disk.pathExists p = true →
        (∀ e, disk.hashResult p config.hash_algorithm = Except.error e →
            build_event_change B p config disk = []) ∧
        (∀ h, disk.hashResult p config.hash_algorithm = Except.ok h →
          (dget B p = none →
              build_event_change B p config disk =
                [Change.mk "created" p [("hash", h)]]) ∧
          (∀ r, dget B p = some r →
            (r.hash ≠ h →
                build_event_change B p config disk =
                  [Change.mk "modified" p [("before", r.hash), ("after", h)]]) ∧
            (r.hash = h → build_event_change B p config disk = [])))) := by
  constructor
  · intro hex
    constructor
    · intro r hr; simp [build_event_change, hex, hr]
    · intro hr; simp [build_event_change, hex, hr]
  · intro hex
    constructor
    · intro e he; simp [build_event_change, hex, he]
    · intro h hh
      constructor
      · intro hr; simp [build_event_change, hex, hh, hr]
      · intro r hr
        constructor
        · intro hne; simp [build_event_change, hex, hh, hr, hne]
        · intro heq; simp [build_event_change, hex, hh, hr, heq]

/-- Witness for C2: a tracked path missing from disk yields its deleted
Change. -/
theorem build_event_change_spec_witness :
    build_event_change sampleBaseline "/path/deleted.txt" sampleConfig
        (DiskState.mk (fun _ => false) (fun _ _ => Except.error "gone")) =
      [Change.mk "deleted" "/path/deleted.txt" [("hash", "oldhash")]] :=
  ((build_event_change_spec sampleBaseline "/path/deleted.txt" sampleConfig
      (DiskState.mk (fun _ => false) (fun _ _ => Except.error "gone"))).1 rfl).1
    (BaselineRecord.mk "/path/deleted.txt" "oldhash" 10 1) rfl

/-- C4 counterexample: a configuration whose hash_algorithm is not a
supported algorithm passes load_config (so the claimed configuration-time
failure does not happen), and compute_file_hash then fails per-file with the
unsupported-algorithm error. -/
theorem load_config_algorithm_cex :
    (load_config (ConfigData.mk ["/data"] [] false (some "not-a-real-algorithm")
        none none none none)).isOk = true ∧
    (load_config (ConfigData.mk ["/data"] [] false (some "not-a-real-algorithm")
        none none none none)).map Config.hash_algorithm =
      Except.ok "not-a-real-algorithm" ∧
    compute_file_hash (HashFS.mk (fun _ => true) (fun _ _ => "")) "/data/f"
        "not-a-real-algorithm" =
      Except.error HashError.unsupportedAlgorithm :=
  ⟨rfl, rfl, rfl⟩

/-- C4 amended: load_config performs no hash-algorithm validation (any
configuration with a non-empty path list loads), and the
unsupported-algorithm error is instead raised per-file by compute_file_hash,
exactly for algorithms outside the supported set. -/
theorem unsupported_algorithm_per_file (data : ConfigData) (hpaths : data.paths ≠ [])
    (fs : HashFS) (p alg : String) :
    (load_config data).isOk = true ∧
    (alg ∉ supportedAlgorithms →
        compute_file_hash fs p alg = Except.error HashError.unsupportedAlgorithm) ∧
    (alg ∈ supportedAlgorithms →
        compute_file_hash fs p alg ≠ Except.error HashError.unsupportedAlgorithm) := by
  refine ⟨?_, ?_, ?_⟩
  · simp [load_config, hpaths, Except.isOk, Except.toBool]
  · intro h
    simp [compute_file_hash, h]
  · intro h
    by_cases hr : fs.readable p <;> simp [compute_file_hash, h, hr]

/-- Witness for C4 amended: "md4" is not guaranteed, so hashing fails
per-file while the configuration loads. -/
theorem unsupported_algorithm_per_file_witness :
    compute_file_hash (HashFS.mk (fun _ => true) (fun _ _ => "digest")) "/data/f" "md4" =
      Except.error HashError.unsupportedAlgorithm :=
  (unsupported_algorithm_per_file
      (ConfigData.mk ["/data"] [] false (some "md4") none none none none)
      (by decide) (HashFS.mk (fun _ => true) (fun _ _ => "digest")) "/data/f" "md4").2.1
    (by decide)

/-- C9: build_baseline and snapshot are the same function of the
configuration and the file system: the source duplicates the walk verbatim. -/
theorem snapshot_eq_build_baseline (fs : WalkFS) (config : Config) :
    snapshot fs config = build_baseline fs config := rfl

/-- C10: every Change produced by compare_baseline or build_event_change
carries every details key format_change indexes for its change_type, so
formatting never hits a missing key. -/
theorem format_change_total_on_core (B C baseline : List (String × BaselineRecord))
    (q : String) (config : Config) (disk : DiskState) (c : Change) :
    (c ∈ compare_baseline B C → (format_change c).isSome = true) ∧
    (c ∈ build_event_change baseline q config disk → (format_change c).isSome = true) := by
  constructor
  · intro hc
    unfold compare_baseline at hc
    rcases List.mem_append.mp hc with hc' | hc'
    · rcases List.mem_append.mp hc' with hc'' | hc''
      · obtain ⟨pp, _, rfl⟩ := List.mem_map.mp hc''
        simp [format_change, dget]
      · obtain ⟨pp, _, rfl⟩ := List.mem_map.mp hc''
        simp [format_change, dget]
    · obtain ⟨pp, _, rfl⟩ := List.mem_map.mp hc'
      simp [format_change, dget]
  · intro hc
    unfold build_event_change at hc
    split at hc
    · split at hc
      · rw [List.mem_singleton] at hc; subst hc; simp [format_change, dget]
      · simp at hc
    · split at hc
      · simp at hc
      · split at hc
        · rw [List.mem_singleton] at hc; subst hc; simp [format_change, dget]
        · split at hc
          · rw [List.mem_singleton] at hc; subst hc; simp [format_change, dget]
          · simp at hc

/-- Witness for C10 on a created Change from the unit-test diff. -/
theorem format_change_total_on_core_witness :
    (format_change (Change.mk "created" "/path/created.txt" [("hash", "newhash")])).isSome
      = true :=
  (format_change_total_on_core sampleBaseline sampleCurrent sampleBaseline "/p"
      sampleConfig (DiskState.mk (fun _ => true) (fun _ _ => Except.ok "h"))
      (Change.mk "created" "/path/created.txt" [("hash", "newhash")])).1 (by decide)

theorem debounce_spacing_aux (debounce_ms : Int) (hms : 0 ≤ debounce_ms) (p : String) :
    ∀ (events : List (ℚ × String)) (table : List (String × ℚ)),
      ((processEvents debounce_ms table events).filter
          (fun e => e.2.1 == p && !e.2.2)).Pairwise
        (fun a b => (debounce_ms : ℚ) ≤ (b.1 - a.1) * 1000) ∧
      ∀ e ∈ (processEvents debounce_ms table events).filter
          (fun e => e.2.1 == p && !e.2.2),
        (debounce_ms : ℚ) ≤ (e.1 - ((dget table p).getD 0)) * 1000 := by
  intro events
  induction events with
  | nil =>
    intro table
    exact ⟨by simp [processEvents], fun e he => by simp [processEvents] at he⟩
  | cons ev rest ih =>
    intro table
    obtain ⟨t, q⟩ := ev
    by_cases hc : (t - ((dget table q).getD 0)) * 1000 < (debounce_ms : ℚ)
    · have hstep : processEvents debounce_ms table ((t, q) :: rest) =
          (t, q, true) :: processEvents debounce_ms table rest := by
        simp [processEvents, debounced, hc]
      rw [hstep, List.filter_cons_of_neg (by simp)]
      exact ih table
    · have hstep : processEvents debounce_ms table ((t, q) :: rest) =
          (t, q, false) :: processEvents debounce_ms (dset table q t) rest := by
        simp [processEvents, debounced, hc]
      rw [hstep]
      obtain ⟨ihp, ihe⟩ := ih (dset table q t)
      by_cases hqp : q = p
      · subst hqp
        rw [List.filter_cons_of_pos (by simp)]
        have hhead : (debounce_ms : ℚ) ≤ (t - ((dget table q).getD 0)) * 1000 :=
          not_lt.mp hc
        have hdb : (0 : ℚ) ≤ (debounce_ms : ℚ) := by exact_mod_cast hms
        constructor
        · refine List.Pairwise.cons ?_ ihp
          intro e he
          have h2 := ihe e he
          rw [dget_dset_self] at h2
          simpa using h2
        · intro e he
          rcases List.mem_cons.mp he with rfl | he'
          · exact hhead
          · have h2 := ihe e he'
            rw [dget_dset_self] at h2
            simp only [Option.getD_some] at h2
            have hsum : (e.1 - ((dget table q).getD 0)) * 1000 =
                (e.1 - t) * 1000 + (t - ((dget table q).getD 0)) * 1000 := by ring
            rw [hsum]
            linarith
      · rw [List.filter_cons_of_neg (by simp [hqp])]
        constructor
        · exact ihp
        · intro e he
          have h2 := ihe e he
          rw [dget_dset_ne table t hqp] at h2
          exact h2

/-- C8 amended: the debounce window is measured from the last accepted event
of a path (a rejected event does not update the table), so any two classifier
invocations for the same path are at least event_debounce_ms milliseconds
apart; a nonnegative window is assumed. -/
theorem debounce_accepted_spacing (debounce_ms : Int) (hms : 0 ≤ debounce_ms)
    (events : List (ℚ × String)) (p : String) :
    ((processEvents debounce_ms [] events).filter
        (fun e => e.2.1 == p && !e.2.2)).Pairwise
      (fun a b => (debounce_ms : ℚ) ≤ (b.1 - a.1) * 1000) :=
  (debounce_spacing_aux debounce_ms hms p events []).1

/-- Witness for C8 amended at the default 250 ms window. -/
theorem debounce_accepted_spacing_witness :
    ((processEvents 250 [] [(1, "/a"), (2, "/a")]).filter
        (fun e => e.2.1 == "/a" && !e.2.2)).Pairwise
      (fun a b => ((250 : Int) : ℚ) ≤ (b.1 - a.1) * 1000) :=
  debounce_accepted_spacing 250 (by decide) [(1, "/a"), (2, "/a")] "/a"

/-- C8 counterexample: with a 1500 ms window and same-path events at t = 10 s,
11 s and 12 s, the second event is rejected but does not refresh the window,
so the third event is accepted (flag false: the classifier runs) even though
it arrives only 1000 ms < 1500 ms after the second event — refuting that any
two events closer than the window yield only one classification. -/
theorem debounce_window_cex :
    processEvents 1500 [] [(10, "/a"), (11, "/a"), (12, "/a")] =
      [(10, "/a", false), (11, "/a", true), (12, "/a", false)] ∧
    ((12 : ℚ) - 11) * 1000 < ((1500 : Int) : ℚ) := by
  constructor
  · norm_num [processEvents, debounced, dget, dset]
  · norm_num

end FIM
